import Mathlib

/-!
Verification development for `libmaple/rcc.c`, the STM32 clock and reset
control (RCC) driver: clock-tree initialization, peripheral clock enable,
peripheral reset, and prescaler configuration.

Memory-mapped registers are modelled as a state `RegState : Nat → Nat`
mapping register addresses to their (32-bit) contents.  The register-access
primitives `__read`, `__write`, `__set_bits` and `__clear_bits` (declared in
`libmaple.h`, which is not part of this slice) are modelled from the spec's
collaborator interface: 32-bit read/write/bit-set/bit-clear on fixed
physical addresses.  `rcc_clk_init` additionally records an event trace of
its reads and writes, and takes an oracle `env` supplying the value of each
successive hardware read (the hardware mutates the status bits of CR/CFGR
asynchronously), plus a fuel bound standing in for time: exhausted fuel
models a busy-wait loop that has not yet terminated.
-/

/-- Addressed 32-bit register file: address → current value. -/
abbrev RegState : Type := Nat → Nat

/-- Modelled from the spec: collaborator primitive `write(address, value)`
from `libmaple.h` (not under `src/`). -/
def __write (addr val : Nat) (s : RegState) : RegState :=
  fun a => if a = addr then val else s a

/-- Modelled from the spec: collaborator primitive `read(address) -> u32`
from `libmaple.h` (not under `src/`). -/
def __read (addr : Nat) (s : RegState) : Nat := s addr

/-- 32-bit one's complement, i.e. the C unary `~` at type `uint32`. -/
def NOT32 (m : Nat) : Nat := (2 ^ 32 - 1) ^^^ m

/-- Modelled from the spec: collaborator primitive `set_bits(address, mask)`
(read-modify-write OR) from `libmaple.h` (not under `src/`). -/
def __set_bits (addr mask : Nat) (s : RegState) : RegState :=
  __write addr (__read addr s ||| mask) s

/-- Modelled from the spec: collaborator primitive `clear_bits(address, mask)`
(read-modify-write AND-NOT) from `libmaple.h` (not under `src/`). -/
def __clear_bits (addr mask : Nat) (s : RegState) : RegState :=
  __write addr (__read addr s &&& NOT32 mask) s

/-- Modelled from the spec: the `BIT(n)` mask macro, `1 << n`. -/
def BIT (n : Nat) : Nat := 1 <<< n

/- Register addresses, from the `#define` block of `rcc.c`. -/

def RCC_BASE : Nat := 0x40021000
def RCC_CR : Nat := RCC_BASE + 0x0
def RCC_CFGR : Nat := RCC_BASE + 0x4
def RCC_CIR : Nat := RCC_BASE + 0x8
def RCC_APB2RSTR : Nat := RCC_BASE + 0xC
def RCC_APB1RSTR : Nat := RCC_BASE + 0x10
def RCC_AHBENR : Nat := RCC_BASE + 0x14
def RCC_APB2ENR : Nat := RCC_BASE + 0x18
def RCC_APB1ENR : Nat := RCC_BASE + 0x1C
def RCC_BDCR : Nat := RCC_BASE + 0x20
def RCC_CSR : Nat := RCC_BASE + 0x24
def RCC_AHBSTR : Nat := RCC_BASE + 0x28
def RCC_CFGR2 : Nat := RCC_BASE + 0x2C

/- CFGR field masks, from `rcc.c`. -/

def RCC_CFGR_USBPRE : Nat := 0x1 <<< 22
def RCC_CFGR_ADCPRE : Nat := 0x3 <<< 14
def RCC_CFGR_PPRE1 : Nat := 0x7 <<< 8
def RCC_CFGR_PPRE2 : Nat := 0x7 <<< 11
def RCC_CFGR_HPRE : Nat := 0xF <<< 4
def RCC_CFGR_PLLSRC : Nat := 0x1 <<< 16

def RCC_CFGR_SWS : Nat := 0x3 <<< 2
def RCC_CFGR_SWS_PLL : Nat := 0x2 <<< 2
def RCC_CFGR_SWS_HSE : Nat := 0x1 <<< 2

def RCC_CFGR_SW : Nat := 0x3 <<< 0
def RCC_CFGR_SW_PLL : Nat := 0x2 <<< 0
def RCC_CFGR_SW_HSE : Nat := 0x1 <<< 0

/- CR status bits, from `rcc.c`. -/

def RCC_CR_HSEON : Nat := 0x1 <<< 16
def RCC_CR_HSERDY : Nat := 0x1 <<< 17
def RCC_CR_PLLON : Nat := 0x1 <<< 24
def RCC_CR_PLLRDY : Nat := 0x1 <<< 25

/-- Modelled from the spec: `RCC_CLKSRC_PLL` is declared in `rcc.h`, which is
not under `src/`; the spec only requires a distinguished "system clock source
is the PLL" selector.  Its value matches the `RCC_CFGR_SW_PLL` field value
used by the configuration-register switch in `rcc.c`. -/
def RCC_CLKSRC_PLL : Nat := 0x2

/-- Modelled from the spec: `RCC_PLLSRC_HSE` is declared in `rcc.h`, which is
not under `src/`; the spec only requires a distinguished "PLL input is the
external oscillator" selector.  Its value matches the `RCC_CFGR_PLLSRC` bit
(bit 16) defined in `rcc.c`. -/
def RCC_PLLSRC_HSE : Nat := 0x1 <<< 16

/-- The anonymous bus-domain enumeration `{ APB1, APB2, AHB }` of `rcc.c`. -/
inductive ClkDomain where
  | APB1 : ClkDomain
  | APB2 : ClkDomain
  | AHB : ClkDomain
deriving DecidableEq, Fintype

/-- The `struct rcc_dev_info` of `rcc.c`: bus domain and bit line of one
peripheral. -/
structure rcc_dev_info where
  clk_domain : ClkDomain
  line_num : Nat
deriving DecidableEq

/-- Modelled from the spec: the closed peripheral-identifier enumeration
(`RCC_GPIOA`, ...) is declared in `rcc.h`, which is not under `src/`; the
spec describes identifiers as a closed, compile-time-known set, one per
entry of the device table of `rcc.c`. -/
inductive RccDev where
  | RCC_GPIOA : RccDev
  | RCC_GPIOB : RccDev
  | RCC_GPIOC : RccDev
  | RCC_GPIOD : RccDev
  | RCC_AFIO : RccDev
  | RCC_ADC1 : RccDev
  | RCC_USART1 : RccDev
  | RCC_USART2 : RccDev
  | RCC_USART3 : RccDev
  | RCC_TIMER1 : RccDev
  | RCC_TIMER2 : RccDev
  | RCC_TIMER3 : RccDev
  | RCC_TIMER4 : RccDev
deriving DecidableEq, Fintype

open RccDev in
/-- The static device descriptor table `rcc_dev_table[]` of `rcc.c`. -/
def rcc_dev_table : RccDev → rcc_dev_info
  | RCC_GPIOA => { clk_domain := .APB2, line_num := 2 }
  | RCC_GPIOB => { clk_domain := .APB2, line_num := 3 }
  | RCC_GPIOC => { clk_domain := .APB2, line_num := 4 }
  | RCC_GPIOD => { clk_domain := .APB2, line_num := 5 }
  | RCC_AFIO => { clk_domain := .APB2, line_num := 0 }
  | RCC_ADC1 => { clk_domain := .APB2, line_num := 9 }
  | RCC_USART1 => { clk_domain := .APB2, line_num := 14 }
  | RCC_USART2 => { clk_domain := .APB1, line_num := 17 }
  | RCC_USART3 => { clk_domain := .APB1, line_num := 18 }
  | RCC_TIMER1 => { clk_domain := .APB2, line_num := 11 }
  | RCC_TIMER2 => { clk_domain := .APB1, line_num := 0 }
  | RCC_TIMER3 => { clk_domain := .APB1, line_num := 1 }
  | RCC_TIMER4 => { clk_domain := .APB1, line_num := 2 }

/-- The local `enable_regs[]` table of `rcc_clk_enable`: enable register
address per bus domain (all three domains have an entry). -/
def enable_regs : ClkDomain → Nat
  | .APB1 => RCC_APB1ENR
  | .APB2 => RCC_APB2ENR
  | .AHB => RCC_AHBENR

/-- The local `reset_regs[]` table of `rcc_reset_dev`: reset register
address per bus domain.  The C array has entries only at indices `APB1` and
`APB2`; the `AHB` index lies outside the two-element array, modelled as
`none`. -/
def reset_regs : ClkDomain → Option Nat
  | .APB1 => some RCC_APB1RSTR
  | .APB2 => some RCC_APB2RSTR
  | .AHB => none

/-- `rcc_clk_enable` of `rcc.c`: set the peripheral's gating bit in the
enable register of its bus domain via `__set_bits`. -/
def rcc_clk_enable (dev_num : RccDev) (s : RegState) : RegState :=
  let clk_domain := (rcc_dev_table dev_num).clk_domain
  __set_bits (enable_regs clk_domain) (BIT (rcc_dev_table dev_num).line_num) s

/-- The prescaler-selector enumeration (`RCC_PRESCALER_*`) is declared in
`rcc.h`, which is not under `src/`; modelled from the spec as the closed
five-element set of prescaler fields. -/
inductive RccPrescaler where
  | RCC_PRESCALER_AHB : RccPrescaler
  | RCC_PRESCALER_APB1 : RccPrescaler
  | RCC_PRESCALER_APB2 : RccPrescaler
  | RCC_PRESCALER_USB : RccPrescaler
  | RCC_PRESCALER_ADC : RccPrescaler
deriving DecidableEq, Fintype

/-- The local `masks[]` array of `rcc_set_prescaler` in `rcc.c`: CFGR field
mask per prescaler selector. -/
def masks : RccPrescaler → Nat
  | .RCC_PRESCALER_AHB => RCC_CFGR_HPRE
  | .RCC_PRESCALER_APB1 => RCC_CFGR_PPRE1
  | .RCC_PRESCALER_APB2 => RCC_CFGR_PPRE2
  | .RCC_PRESCALER_USB => RCC_CFGR_USBPRE
  | .RCC_PRESCALER_ADC => RCC_CFGR_ADCPRE

/-- `rcc_set_prescaler` of `rcc.c`: read CFGR, clear the selector's field
mask, OR in the divider, write CFGR back. -/
def rcc_set_prescaler (prescaler : RccPrescaler) (divider : Nat) (s : RegState) : RegState :=
  let cfgr := __read RCC_CFGR s
  let cfgr := cfgr &&& NOT32 (masks prescaler)
  let cfgr := cfgr ||| divider
  __write RCC_CFGR cfgr s

/-- Register-access event: a read or a write of an address with the value
transferred. -/
inductive Ev where
  | rd : Nat → Nat → Ev
  | wr : Nat → Nat → Ev
deriving DecidableEq

/-- `rcc_reset_dev` of `rcc.c`: pulse the peripheral's bit in the reset
register of its bus domain (`__set_bits` then `__clear_bits`).  Returns the
final state together with the write trace of the two read-modify-writes.
The `none` branch models the out-of-bounds `reset_regs[AHB]` index; no
device of the table reaches it, since every table entry's domain is APB1 or
APB2. -/
def rcc_reset_dev (dev_num : RccDev) (s : RegState) : RegState × List Ev :=
  match reset_regs (rcc_dev_table dev_num).clk_domain with
  | some addr =>
    let m := BIT (rcc_dev_table dev_num).line_num
    let s1 := __set_bits addr m s
    let s2 := __clear_bits addr m s1
    (s2, [Ev.wr addr (s1 addr), Ev.wr addr (s2 addr)])
  | none => (s, [])

/-- The all-zero register file. -/
def zeroRegs : RegState := fun _ => 0

/-- a register file with an arbitrary nonzero 32-bit pattern everywhere,
used to instantiate frame theorems at a concrete state. -/
def sampleRegs : RegState := fun _ => 0x12345678

/-- The union of the five CFGR prescaler field masks (HPRE, PPRE1, PPRE2,
ADCPRE, USBPRE). -/
def prescalerFields : Nat :=
  RCC_CFGR_HPRE ||| RCC_CFGR_PPRE1 ||| RCC_CFGR_PPRE2 ||| RCC_CFGR_ADCPRE ||| RCC_CFGR_USBPRE

/-- Outcome of a `rcc_clk_init` run: assertion failure (with the register
state at the failure, unchanged), fuel exhaustion inside a busy-wait loop
(the function has not returned), or normal return.  The latter two carry the
event trace and the register state as written so far. -/
inductive InitResult where
  | assertFail : RegState → InitResult
  | timeout : List Ev → RegState → InitResult
  | ok : List Ev → RegState → InitResult

/-- Whether an `InitResult` is a normal return. -/
def InitResult.isOk : InitResult → Bool
  | .ok _ _ => true
  | _ => false

/-- The event trace recorded in an `InitResult`. -/
def InitResult.trace : InitResult → List Ev
  | .assertFail _ => []
  | .timeout evs _ => evs
  | .ok evs _ => evs

/-- The register state carried by an `InitResult`. -/
def InitResult.state : InitResult → RegState
  | .assertFail s => s
  | .timeout _ s => s
  | .ok _ s => s

/-- Exit condition of the HSE busy-wait loop of `rcc_clk_init`:
`RCC_READ_CR() & RCC_CR_HSERDY` nonzero. -/
def condHSERDY (v : Nat) : Bool := (v &&& RCC_CR_HSERDY) != 0

/-- Exit condition of the PLL busy-wait loop of `rcc_clk_init`:
`RCC_READ_CR() & RCC_CR_PLLRDY` nonzero. -/
def condPLLRDY (v : Nat) : Bool := (v &&& RCC_CR_PLLRDY) != 0

/-- Exit condition of the clock-switch busy-wait loop of `rcc_clk_init`:
`RCC_READ_CFGR() & RCC_CFGR_SWS` equal to `RCC_CFGR_SWS_PLL`. -/
def condSWSPLL (v : Nat) : Bool := (v &&& RCC_CFGR_SWS) == RCC_CFGR_SWS_PLL

/-- A busy-wait loop polling successive hardware reads `env i, env (i+1), ...`
until `cond` holds, bounded by `fuel`.  Returns the values read while the
condition was still false, and — if the loop exited within `fuel` reads —
the value that satisfied `cond` together with the next read index. -/
def waitCond (env : Nat → Nat) (cond : Nat → Bool) : Nat → Nat → List Nat × Option (Nat × Nat)
  | 0, _ => ([], none)
  | fuel + 1, i =>
    let v := env i
    if cond v then ([], some (v, i + 1))
    else
      let r := waitCond env cond fuel (i + 1)
      (v :: r.1, r.2)

/-- `rcc_clk_init` of `rcc.c`.  `env k` is the value returned by the `k`-th
hardware read (index 0 is the initial `RCC_READ_CR()`); `fuel` bounds each
busy-wait loop, standing in for elapsed time; `s` is the register state.
The body mirrors the source line by line: assert the argument combination
(the `ASSERT` macro of `libmaple.h` is not under `src/` and is modelled
from the spec as fatal), read CR, compose and write CFGR from
`pll_src | pll_mul`, set HSEON and wait for HSERDY, set PLLON and wait for
PLLRDY, clear the SW field, select the PLL and wait until SWS reads back as
PLL. -/
def rcc_clk_init (sysclk_src pll_src pll_mul : Nat) (env : Nat → Nat) (fuel : Nat)
    (s : RegState) : InitResult :=
  if sysclk_src = RCC_CLKSRC_PLL ∧ pll_src = RCC_PLLSRC_HSE then
    let cr0 := env 0
    let cfgr0 := pll_src ||| pll_mul
    let s1 := __write RCC_CFGR cfgr0 s
    let cr1 := cr0 ||| RCC_CR_HSEON
    let s2 := __write RCC_CR cr1 s1
    let evs0 := [Ev.rd RCC_CR cr0, Ev.wr RCC_CFGR cfgr0, Ev.wr RCC_CR cr1]
    match waitCond env condHSERDY fuel 1 with
    | (l1, none) => InitResult.timeout (evs0 ++ l1.map (Ev.rd RCC_CR)) s2
    | (l1, some (v1, i1)) =>
      let cr2 := cr1 ||| RCC_CR_PLLON
      let s3 := __write RCC_CR cr2 s2
      let evs1 := evs0 ++ l1.map (Ev.rd RCC_CR) ++ [Ev.rd RCC_CR v1, Ev.wr RCC_CR cr2]
      match waitCond env condPLLRDY fuel i1 with
      | (l2, none) => InitResult.timeout (evs1 ++ l2.map (Ev.rd RCC_CR)) s3
      | (l2, some (v2, i2)) =>
        let cfgr1 := (cfgr0 &&& NOT32 RCC_CFGR_SW) ||| RCC_CFGR_SW_PLL
        let s4 := __write RCC_CFGR cfgr1 s3
        let evs2 := evs1 ++ l2.map (Ev.rd RCC_CR) ++ [Ev.rd RCC_CR v2, Ev.wr RCC_CFGR cfgr1]
        match waitCond env condSWSPLL fuel i2 with
        | (l3, none) => InitResult.timeout (evs2 ++ l3.map (Ev.rd RCC_CFGR)) s4
        | (l3, some (v3, _)) =>
          InitResult.ok (evs2 ++ l3.map (Ev.rd RCC_CFGR) ++ [Ev.rd RCC_CFGR v3]) s4
  else InitResult.assertFail s

/-- The event-trace shape of every normal return of `rcc_clk_init`: the
initial CR read; the CFGR write priming the PLL input and multiplier; the
HSEON write; CR reads with HSERDY clear, then one with HSERDY set; only then
the PLLON write; CR reads with PLLRDY clear, then one with PLLRDY set; only
then the CFGR write switching the SW field to PLL; CFGR reads with SWS not
yet PLL; and the trace ends with a CFGR read whose SWS field equals PLL. -/
def initTraceShape (pll_src pll_mul : Nat) (evs : List Ev) : Prop :=
  ∃ (cr0 : Nat) (l1 : List Nat) (v1 : Nat) (l2 : List Nat) (v2 : Nat) (l3 : List Nat) (v3 : Nat),
    evs = [Ev.rd RCC_CR cr0, Ev.wr RCC_CFGR (pll_src ||| pll_mul),
           Ev.wr RCC_CR (cr0 ||| RCC_CR_HSEON)]
          ++ l1.map (Ev.rd RCC_CR)
          ++ [Ev.rd RCC_CR v1, Ev.wr RCC_CR (cr0 ||| RCC_CR_HSEON ||| RCC_CR_PLLON)]
          ++ l2.map (Ev.rd RCC_CR)
          ++ [Ev.rd RCC_CR v2,
              Ev.wr RCC_CFGR (((pll_src ||| pll_mul) &&& NOT32 RCC_CFGR_SW) ||| RCC_CFGR_SW_PLL)]
          ++ l3.map (Ev.rd RCC_CFGR)
          ++ [Ev.rd RCC_CFGR v3]
    ∧ (∀ u ∈ l1, u &&& RCC_CR_HSERDY = 0) ∧ v1 &&& RCC_CR_HSERDY ≠ 0
    ∧ (∀ u ∈ l2, u &&& RCC_CR_PLLRDY = 0) ∧ v2 &&& RCC_CR_PLLRDY ≠ 0
    ∧ (∀ u ∈ l3, u &&& RCC_CFGR_SWS ≠ RCC_CFGR_SWS_PLL)
    ∧ v3 &&& RCC_CFGR_SWS = RCC_CFGR_SWS_PLL

/-- A busy-wait loop that exits within its fuel saw the condition false on
every earlier read and true on the exiting read. -/
theorem waitCond_some_spec {env : Nat → Nat} {cond : Nat → Bool} :
    ∀ {fuel i l v j}, waitCond env cond fuel i = (l, some (v, j)) →
      (∀ u ∈ l, cond u = false) ∧ cond v = true := by
  intro fuel
  induction fuel with
  | zero =>
    intro i l v j h
    simp [waitCond] at h
  | succ n ih =>
    intro i l v j h
    by_cases hc : cond (env i) = true
    · simp only [waitCond, hc, if_true] at h
      obtain ⟨hl, hvj⟩ := Prod.mk.injEq .. ▸ h
      obtain ⟨hv, hj⟩ := Prod.mk.injEq .. ▸ Option.some.injEq .. ▸ hvj
      subst hl hv
      exact ⟨by intro u hu; simp at hu, hc⟩
    · rw [Bool.not_eq_true] at hc
      simp only [waitCond, hc, Bool.false_eq_true, if_false] at h
      rcases hw : waitCond env cond n (i + 1) with ⟨l2, o2⟩
      rw [hw] at h
      obtain ⟨hl, ho⟩ := Prod.mk.injEq .. ▸ h
      subst hl
      subst ho
      obtain ⟨ht, hv⟩ := ih hw
      refine ⟨?_, hv⟩
      intro u hu
      rcases List.mem_cons.mp hu with h1 | h1
      · subst h1; exact hc
      · exact ht u h1

/-- A busy-wait loop whose condition never holds on any read does not exit,
for any fuel. -/
theorem waitCond_never {env : Nat → Nat} {cond : Nat → Bool}
    (h : ∀ k, cond (env k) = false) : ∀ fuel i, (waitCond env cond fuel i).2 = none := by
  intro fuel
  induction fuel with
  | zero => intro i; rfl
  | succ n ih => intro i; simp [waitCond, h i, ih (i + 1)]

/-- Characterization of every normal return of `rcc_clk_init` with valid
arguments: the event trace has the gated shape `initTraceShape`, and the
final register state is exactly the four writes applied in order. -/
theorem rcc_clk_init_ok_spec {pll_mul : Nat} {env : Nat → Nat} {fuel : Nat} {s : RegState}
    {evs : List Ev} {s1 : RegState}
    (h : rcc_clk_init RCC_CLKSRC_PLL RCC_PLLSRC_HSE pll_mul env fuel s = InitResult.ok evs s1) :
    initTraceShape RCC_PLLSRC_HSE pll_mul evs ∧
    s1 = __write RCC_CFGR (((RCC_PLLSRC_HSE ||| pll_mul) &&& NOT32 RCC_CFGR_SW) ||| RCC_CFGR_SW_PLL)
          (__write RCC_CR (env 0 ||| RCC_CR_HSEON ||| RCC_CR_PLLON)
            (__write RCC_CR (env 0 ||| RCC_CR_HSEON)
              (__write RCC_CFGR (RCC_PLLSRC_HSE ||| pll_mul) s))) := by
  unfold rcc_clk_init at h
  rw [if_pos ⟨rfl, rfl⟩] at h
  rcases hw1 : waitCond env condHSERDY fuel 1 with ⟨l1, o1⟩
  rw [hw1] at h
  cases o1 with
  | none => exact absurd h (by simp)
  | some p1 =>
    rcases p1 with ⟨v1, i1⟩
    dsimp only at h
    rcases hw2 : waitCond env condPLLRDY fuel i1 with ⟨l2, o2⟩
    rw [hw2] at h
    cases o2 with
    | none => exact absurd h (by simp)
    | some p2 =>
      rcases p2 with ⟨v2, i2⟩
      dsimp only at h
      rcases hw3 : waitCond env condSWSPLL fuel i2 with ⟨l3, o3⟩
      rw [hw3] at h
      cases o3 with
      | none => exact absurd h (by simp)
      | some p3 =>
        rcases p3 with ⟨v3, j3⟩
        dsimp only at h
        simp only [InitResult.ok.injEq] at h
        obtain ⟨hevs, hst⟩ := h
        obtain ⟨hc1, hv1⟩ := waitCond_some_spec hw1
        obtain ⟨hc2, hv2⟩ := waitCond_some_spec hw2
        obtain ⟨hc3, hv3⟩ := waitCond_some_spec hw3
        constructor
        · refine ⟨env 0, l1, v1, l2, v2, l3, v3, ?_, ?_, ?_, ?_, ?_, ?_, ?_⟩
          · rw [← hevs]
          · intro u hu
            have := hc1 u hu
            simpa [condHSERDY] using this
          · simpa [condHSERDY] using hv1
          · intro u hu
            have := hc2 u hu
            simpa [condPLLRDY] using this
          · simpa [condPLLRDY] using hv2
          · intro u hu
            have := hc3 u hu
            simpa [condSWSPLL] using this
          · simpa [condSWSPLL] using hv3
        · rw [← hst]

/-- With valid arguments, if a required ready condition is never observed on
any hardware read, `rcc_clk_init` never reaches a normal return, for any
fuel: the corresponding busy-wait loop exhausts the fuel. -/
theorem rcc_clk_init_stuck {pll_mul : Nat} {env : Nat → Nat} (fuel : Nat) (s : RegState)
    (h : (∀ k, env k &&& RCC_CR_HSERDY = 0) ∨ (∀ k, env k &&& RCC_CR_PLLRDY = 0) ∨
         (∀ k, env k &&& RCC_CFGR_SWS ≠ RCC_CFGR_SWS_PLL)) :
    (rcc_clk_init RCC_CLKSRC_PLL RCC_PLLSRC_HSE pll_mul env fuel s).isOk = false := by
  unfold rcc_clk_init
  rw [if_pos ⟨rfl, rfl⟩]
  rcases h with h | h | h
  · have hn : ∀ k, condHSERDY (env k) = false := fun k => by simp [condHSERDY, h k]
    have h2 := waitCond_never hn fuel 1
    rcases hw1 : waitCond env condHSERDY fuel 1 with ⟨l1, o1⟩
    rw [hw1] at h2
    simp only at h2
    subst h2
    rfl
  · rcases hw1 : waitCond env condHSERDY fuel 1 with ⟨l1, o1⟩
    cases o1 with
    | none => rfl
    | some p1 =>
      rcases p1 with ⟨v1, i1⟩
      dsimp only
      have hn : ∀ k, condPLLRDY (env k) = false := fun k => by simp [condPLLRDY, h k]
      have h2 := waitCond_never hn fuel i1
      rcases hw2 : waitCond env condPLLRDY fuel i1 with ⟨l2, o2⟩
      rw [hw2] at h2
      simp only at h2
      subst h2
      rfl
  · rcases hw1 : waitCond env condHSERDY fuel 1 with ⟨l1, o1⟩
    cases o1 with
    | none => rfl
    | some p1 =>
      rcases p1 with ⟨v1, i1⟩
      dsimp only
      rcases hw2 : waitCond env condPLLRDY fuel i1 with ⟨l2, o2⟩
      cases o2 with
      | none => rfl
      | some p2 =>
        rcases p2 with ⟨v2, i2⟩
        dsimp only
        have hn : ∀ k, condSWSPLL (env k) = false := fun k => by
          simp [condSWSPLL, h k]
        have h2 := waitCond_never hn fuel i2
        rcases hw3 : waitCond env condSWSPLL fuel i2 with ⟨l3, o3⟩
        rw [hw3] at h2
        simp only at h2
        subst h2
        rfl

/-- Conjunction distributes over disjunction of bits: AND distributes over
OR on `Nat` bitwise operations. -/
theorem lor_and_distrib (a b c : Nat) : (a ||| b) &&& c = (a &&& c) ||| (b &&& c) := by
  apply Nat.eq_of_testBit_eq
  intro i
  simp only [Nat.testBit_and, Nat.testBit_or]
  cases a.testBit i <;> cases b.testBit i <;> cases c.testBit i <;> rfl

/-- Associativity of `Nat` bitwise AND. -/
theorem land_assoc3 (a b c : Nat) : (a &&& b) &&& c = a &&& (b &&& c) := by
  apply Nat.eq_of_testBit_eq
  intro i
  simp only [Nat.testBit_and]
  cases a.testBit i <;> cases b.testBit i <;> cases c.testBit i <;> rfl

/-- Bitwise AND with zero on the right. -/
theorem land_zero_right (a : Nat) : a &&& 0 = 0 := by
  apply Nat.eq_of_testBit_eq
  intro i
  simp only [Nat.testBit_and, Nat.zero_testBit, Bool.and_false]

/-- Bitwise OR with zero on the left. -/
theorem zero_lor_left (a : Nat) : 0 ||| a = a := by
  apply Nat.eq_of_testBit_eq
  intro i
  simp only [Nat.testBit_or, Nat.zero_testBit, Bool.false_or]

/-- ORing the same mask twice equals ORing it once. -/
theorem lor_lor_self (x m : Nat) : (x ||| m) ||| m = x ||| m := by
  apply Nat.eq_of_testBit_eq
  intro i
  simp only [Nat.testBit_or]
  cases x.testBit i <;> cases m.testBit i <;> rfl

/-- Setting then clearing a single bit below 32 restores a 32-bit value in
which that bit was clear. -/
theorem pulse_restore {x n : Nat} (hx : x < 2 ^ 32) (hn : n < 32) (hb : x.testBit n = false) :
    (x ||| 2 ^ n) &&& NOT32 (2 ^ n) = x := by
  apply Nat.eq_of_testBit_eq
  intro i
  simp only [Nat.testBit_and, Nat.testBit_or, NOT32, Nat.testBit_xor,
    Nat.testBit_two_pow_sub_one]
  by_cases hin : i = n
  · subst hin
    simp [Nat.testBit_two_pow_self, hb, hn]
  · by_cases h32 : i < 32
    · simp [Nat.testBit_two_pow_of_ne (fun hh => hin hh.symm), h32]
    · have hxi : x.testBit i = false := by
        apply Nat.testBit_lt_two_pow
        exact lt_of_lt_of_le hx (Nat.pow_le_pow_right (by norm_num) (by omega))
      simp [Nat.testBit_two_pow_of_ne (fun hh => hin hh.symm), h32, hxi]

/-- After setting then clearing a single bit below 32, that bit is clear. -/
theorem clear_own_bit {x n : Nat} (hn : n < 32) :
    ((x ||| 2 ^ n) &&& NOT32 (2 ^ n)).testBit n = false := by
  have hmask : Nat.testBit (2 ^ 32 - 1) n = true := by
    rw [Nat.testBit_two_pow_sub_one]
    simpa using hn
  simp only [Nat.testBit_and, Nat.testBit_or, NOT32, Nat.testBit_xor,
    Nat.testBit_two_pow_self, hmask]
  simp

/-- The final CFGR value composed by `rcc_clk_init` has its SW field equal
to the PLL selector, for every multiplier. -/
theorem final_cfgr_sw (pll_mul : Nat) :
    ((((RCC_PLLSRC_HSE ||| pll_mul) &&& NOT32 RCC_CFGR_SW) ||| RCC_CFGR_SW_PLL) &&& RCC_CFGR_SW)
      = RCC_CFGR_SW_PLL := by
  rw [lor_and_distrib, land_assoc3]
  rw [show NOT32 RCC_CFGR_SW &&& RCC_CFGR_SW = 0 by decide]
  rw [land_zero_right, zero_lor_left]
  decide

/-- The final CFGR value composed by `rcc_clk_init` has all five prescaler
fields zero whenever the multiplier encoding has no prescaler bits. -/
theorem final_cfgr_presc {pll_mul : Nat} (h : pll_mul &&& prescalerFields = 0) :
    ((((RCC_PLLSRC_HSE ||| pll_mul) &&& NOT32 RCC_CFGR_SW) ||| RCC_CFGR_SW_PLL) &&& prescalerFields)
      = 0 := by
  rw [lor_and_distrib, land_assoc3]
  rw [show NOT32 RCC_CFGR_SW &&& prescalerFields = prescalerFields by decide]
  rw [lor_and_distrib]
  rw [show RCC_PLLSRC_HSE &&& prescalerFields = 0 by decide]
  rw [h, zero_lor_left]
  rw [show RCC_CFGR_SW_PLL &&& prescalerFields = 0 by decide]
  decide

/-- Every device of the table resolves to a defined reset register (all
domains in the table are APB1 or APB2). -/
theorem reset_regs_defined :
    ∀ d : RccDev, (reset_regs (rcc_dev_table d).clk_domain).isSome = true := by
  decide

/-- Every line number of the device table is a valid 32-bit bit index. -/
theorem line_lt_32 : ∀ d : RccDev, (rcc_dev_table d).line_num < 32 := by
  decide

/-- C1: in `rcc_clk_init` the hardware-transition steps occur in strict
order and each confirmation gates the next write — every normal return's
event trace has the shape `initTraceShape` (the PLLON write of CR occurs
only after a CR read with HSERDY set, the CFGR system-clock switch only
after a CR read with PLLRDY set, and the trace ends with a CFGR read whose
SWS field equals PLL) — and if a required ready bit is never observed set
on any read, the function never returns normally, for any fuel (no
timeout). -/
theorem rcc_clk_init_gated_ordering :
    (∀ (pll_mul : Nat) (env : Nat → Nat) (fuel : Nat) (s : RegState) (evs : List Ev)
        (s1 : RegState),
        rcc_clk_init RCC_CLKSRC_PLL RCC_PLLSRC_HSE pll_mul env fuel s = InitResult.ok evs s1 →
        initTraceShape RCC_PLLSRC_HSE pll_mul evs)
    ∧ (∀ (pll_mul : Nat) (env : Nat → Nat) (fuel : Nat) (s : RegState),
        ((∀ k, env k &&& RCC_CR_HSERDY = 0) ∨ (∀ k, env k &&& RCC_CR_PLLRDY = 0) ∨
         (∀ k, env k &&& RCC_CFGR_SWS ≠ RCC_CFGR_SWS_PLL)) →
        (rcc_clk_init RCC_CLKSRC_PLL RCC_PLLSRC_HSE pll_mul env fuel s).isOk = false) :=
  ⟨fun _ _ _ _ _ _ h => (rcc_clk_init_ok_spec h).1,
   fun _ _ fuel s h => rcc_clk_init_stuck fuel s h⟩

/-- Witness for C1: a run whose oracle immediately reports HSERDY, PLLRDY
and SWS=PLL returns normally with a trace of the gated shape, and a run
whose oracle never reports HSERDY does not return. -/
theorem rcc_clk_init_gated_ordering_witness :
    initTraceShape RCC_PLLSRC_HSE (0x7 <<< 18)
      (InitResult.trace (rcc_clk_init RCC_CLKSRC_PLL RCC_PLLSRC_HSE (0x7 <<< 18)
        (fun _ => 0x2020008) 10 zeroRegs))
    ∧ (rcc_clk_init RCC_CLKSRC_PLL RCC_PLLSRC_HSE (0x7 <<< 18) (fun _ => 0) 5 zeroRegs).isOk
        = false :=
  ⟨rcc_clk_init_gated_ordering.1 (0x7 <<< 18) (fun _ => 0x2020008) 10 zeroRegs _ _ rfl,
   rcc_clk_init_gated_ordering.2 (0x7 <<< 18) (fun _ => 0) 5 zeroRegs
     (Or.inl fun _ => Nat.zero_and _)⟩

/-- C2: for every call in which `sysclk_src` is not `RCC_CLKSRC_PLL` or
`pll_src` is not `RCC_PLLSRC_HSE`, `rcc_clk_init` fails fatally via the
assertion before performing any register write: the result is an assertion
failure carrying the register state unchanged. -/
theorem rcc_clk_init_assert_no_write :
    ∀ (sysclk_src pll_src pll_mul : Nat) (env : Nat → Nat) (fuel : Nat) (s : RegState),
      (sysclk_src ≠ RCC_CLKSRC_PLL ∨ pll_src ≠ RCC_PLLSRC_HSE) →
      rcc_clk_init sysclk_src pll_src pll_mul env fuel s = InitResult.assertFail s := by
  intro a b c env fuel s h
  unfold rcc_clk_init
  rw [if_neg]
  rintro ⟨h1, h2⟩
  rcases h with h | h
  · exact h h1
  · exact h h2

/-- Witness for C2: requesting clock source 0 with PLL source 0 fails the
assertion with the registers untouched. -/
theorem rcc_clk_init_assert_no_write_witness :
    rcc_clk_init 0 0 9 (fun _ => 0) 5 zeroRegs = InitResult.assertFail zeroRegs :=
  rcc_clk_init_assert_no_write 0 0 9 (fun _ => 0) 5 zeroRegs (Or.inl (by decide))

/-- C3: for every peripheral and prior register state, `rcc_clk_enable` sets
the bit at the peripheral's line in its domain's enable register, leaves
every other bit of that register unchanged, and leaves every other register
unchanged. -/
theorem rcc_clk_enable_sets_exact_bit :
    ∀ (dev : RccDev) (s : RegState),
      ((rcc_clk_enable dev s) (enable_regs (rcc_dev_table dev).clk_domain)).testBit
          (rcc_dev_table dev).line_num = true
      ∧ (∀ b, b ≠ (rcc_dev_table dev).line_num →
          ((rcc_clk_enable dev s) (enable_regs (rcc_dev_table dev).clk_domain)).testBit b
            = (s (enable_regs (rcc_dev_table dev).clk_domain)).testBit b)
      ∧ (∀ a, a ≠ enable_regs (rcc_dev_table dev).clk_domain → (rcc_clk_enable dev s) a = s a) := by
  intro dev s
  have hbit : BIT (rcc_dev_table dev).line_num = 2 ^ (rcc_dev_table dev).line_num :=
    Nat.one_shiftLeft _
  refine ⟨?_, ?_, ?_⟩
  · unfold rcc_clk_enable __set_bits __write __read
    simp [hbit, Nat.testBit_or, Nat.testBit_two_pow_self]
  · intro b hb
    unfold rcc_clk_enable __set_bits __write __read
    simp [hbit, Nat.testBit_or, Nat.testBit_two_pow_of_ne (fun hh => hb hh.symm)]
  · intro a ha
    unfold rcc_clk_enable __set_bits __write __read
    simp [ha]

/-- Witness for C3: enabling GPIOA on zeroed registers sets bit 2 of the
APB2 enable register, preserves its bit 5, and leaves CR untouched. -/
theorem rcc_clk_enable_sets_exact_bit_witness :
    ((rcc_clk_enable RccDev.RCC_GPIOA zeroRegs) RCC_APB2ENR).testBit 2 = true
    ∧ ((rcc_clk_enable RccDev.RCC_GPIOA zeroRegs) RCC_APB2ENR).testBit 5
        = (zeroRegs RCC_APB2ENR).testBit 5
    ∧ (rcc_clk_enable RccDev.RCC_GPIOA zeroRegs) RCC_CR = zeroRegs RCC_CR :=
  ⟨(rcc_clk_enable_sets_exact_bit RccDev.RCC_GPIOA zeroRegs).1,
   (rcc_clk_enable_sets_exact_bit RccDev.RCC_GPIOA zeroRegs).2.1 5 (by decide),
   (rcc_clk_enable_sets_exact_bit RccDev.RCC_GPIOA zeroRegs).2.2 RCC_CR (by decide)⟩

/-- C4: for every prescaler selector and divider, `rcc_set_prescaler`
clears the selector's field mask in CFGR and ORs in the divider; under the
caller obligation that the divider lies within the selector's mask, every
CFGR bit outside the mask is unchanged, and every other register is
unchanged.  The 32-bit bound on the stored CFGR value reflects the register
width. -/
theorem rcc_set_prescaler_frame :
    ∀ (p : RccPrescaler) (divider : Nat) (s : RegState),
      s RCC_CFGR < 2 ^ 32 →
      (∀ b, divider.testBit b = true → (masks p).testBit b = true) →
      rcc_set_prescaler p divider s RCC_CFGR = (s RCC_CFGR &&& NOT32 (masks p)) ||| divider
      ∧ (∀ a, a ≠ RCC_CFGR → rcc_set_prescaler p divider s a = s a)
      ∧ (∀ b, (masks p).testBit b = false →
          (rcc_set_prescaler p divider s RCC_CFGR).testBit b = (s RCC_CFGR).testBit b) := by
  intro p divider s hs hdiv
  have hval : rcc_set_prescaler p divider s RCC_CFGR
      = (s RCC_CFGR &&& NOT32 (masks p)) ||| divider := by
    unfold rcc_set_prescaler __write __read
    simp
  refine ⟨hval, ?_, ?_⟩
  · intro a ha
    unfold rcc_set_prescaler __write __read
    simp [ha]
  · intro b hmb
    rw [hval]
    have hdb : divider.testBit b = false := by
      cases hd : divider.testBit b
      · rfl
      · exact absurd (hdiv b hd) (by simp [hmb])
    by_cases h32 : b < 32
    · have hmask : Nat.testBit (2 ^ 32 - 1) b = true := by
        rw [Nat.testBit_two_pow_sub_one]
        simpa using h32
      simp only [Nat.testBit_or, Nat.testBit_and, NOT32, Nat.testBit_xor, hmask, hmb, hdb,
        Bool.xor_false, Bool.or_false, Bool.and_true]
    · have hmask : Nat.testBit (2 ^ 32 - 1) b = false := by
        rw [Nat.testBit_two_pow_sub_one]
        simpa using h32
      have hsb : (s RCC_CFGR).testBit b = false := by
        apply Nat.testBit_lt_two_pow
        exact lt_of_lt_of_le hs (Nat.pow_le_pow_right (by norm_num) (by omega))
      simp only [Nat.testBit_or, Nat.testBit_and, NOT32, Nat.testBit_xor, hmask, hmb, hdb,
        hsb, Bool.xor_false, Bool.or_false, Bool.false_and]

/-- Witness for C4: installing the full-AHB-field divider pattern on a
sample register file rewrites only the HPRE field, preserves CFGR bit 16
and leaves CR untouched. -/
theorem rcc_set_prescaler_frame_witness :
    rcc_set_prescaler RccPrescaler.RCC_PRESCALER_AHB RCC_CFGR_HPRE sampleRegs RCC_CFGR
        = (sampleRegs RCC_CFGR &&& NOT32 RCC_CFGR_HPRE) ||| RCC_CFGR_HPRE
    ∧ rcc_set_prescaler RccPrescaler.RCC_PRESCALER_AHB RCC_CFGR_HPRE sampleRegs RCC_CR
        = sampleRegs RCC_CR
    ∧ (rcc_set_prescaler RccPrescaler.RCC_PRESCALER_AHB RCC_CFGR_HPRE sampleRegs
        RCC_CFGR).testBit 16 = (sampleRegs RCC_CFGR).testBit 16 := by
  have h := rcc_set_prescaler_frame RccPrescaler.RCC_PRESCALER_AHB RCC_CFGR_HPRE sampleRegs
    (by decide) (fun _ h => h)
  exact ⟨h.1, h.2.1 RCC_CR (by decide), h.2.2 16 (by decide)⟩

/-- C5: for every peripheral (all of which lie in a domain with a reset
register) and every 32-bit register state, `rcc_reset_dev` issues a genuine
set-then-clear pulse on the peripheral's bit of its domain's reset
register: the write trace is exactly a write with the bit set followed by a
write with the bit clear, the final value of that register is the second
written value (bit clear), and if the bit was initially clear the register's
final value equals its initial value. -/
theorem rcc_reset_dev_pulse :
    ∀ (dev : RccDev) (s : RegState), (∀ a, s a < 2 ^ 32) →
      ∃ addr, reset_regs (rcc_dev_table dev).clk_domain = some addr
        ∧ ∃ v1 v2, (rcc_reset_dev dev s).2 = [Ev.wr addr v1, Ev.wr addr v2]
            ∧ v1.testBit (rcc_dev_table dev).line_num = true
            ∧ v2.testBit (rcc_dev_table dev).line_num = false
            ∧ (rcc_reset_dev dev s).1 addr = v2
            ∧ ((s addr).testBit (rcc_dev_table dev).line_num = false →
                (rcc_reset_dev dev s).1 addr = s addr) := by
  intro dev s hs
  obtain ⟨addr, haddr⟩ := Option.isSome_iff_exists.mp (reset_regs_defined dev)
  have hline := line_lt_32 dev
  have hbit : BIT (rcc_dev_table dev).line_num = 2 ^ (rcc_dev_table dev).line_num :=
    Nat.one_shiftLeft _
  have hrun : rcc_reset_dev dev s
      = (__clear_bits addr (BIT (rcc_dev_table dev).line_num)
           (__set_bits addr (BIT (rcc_dev_table dev).line_num) s),
         [Ev.wr addr ((__set_bits addr (BIT (rcc_dev_table dev).line_num) s) addr),
          Ev.wr addr ((__clear_bits addr (BIT (rcc_dev_table dev).line_num)
            (__set_bits addr (BIT (rcc_dev_table dev).line_num) s)) addr)]) := by
    unfold rcc_reset_dev
    rw [haddr]
  have h1 : (__set_bits addr (BIT (rcc_dev_table dev).line_num) s) addr
      = s addr ||| 2 ^ (rcc_dev_table dev).line_num := by
    unfold __set_bits __write __read
    simp [hbit]
  have h2 : (__clear_bits addr (BIT (rcc_dev_table dev).line_num)
        (__set_bits addr (BIT (rcc_dev_table dev).line_num) s)) addr
      = (s addr ||| 2 ^ (rcc_dev_table dev).line_num)
          &&& NOT32 (2 ^ (rcc_dev_table dev).line_num) := by
    unfold __clear_bits __set_bits __write __read
    simp [hbit]
  refine ⟨addr, haddr, s addr ||| 2 ^ (rcc_dev_table dev).line_num,
    (s addr ||| 2 ^ (rcc_dev_table dev).line_num) &&& NOT32 (2 ^ (rcc_dev_table dev).line_num),
    ?_, ?_, ?_, ?_, ?_⟩
  · rw [hrun]
    simp [h1, h2]
  · simp [Nat.testBit_or, Nat.testBit_two_pow_self]
  · exact clear_own_bit hline
  · rw [hrun]
    exact h2
  · intro hclear
    rw [hrun]
    simp only [h2]
    exact pulse_restore (hs addr) hline hclear

/-- Witness for C5: resetting USART2 on zeroed registers restores the APB1
reset register to its initial (zero) value. -/
theorem rcc_reset_dev_pulse_witness :
    (rcc_reset_dev RccDev.RCC_USART2 zeroRegs).1 RCC_APB1RSTR = zeroRegs RCC_APB1RSTR := by
  obtain ⟨addr, haddr, v1, v2, htr, hv1, hv2, hfin, hres⟩ :=
    rcc_reset_dev_pulse RccDev.RCC_USART2 zeroRegs (fun _ => (by decide : (0 : Nat) < 2 ^ 32))
  have ha : addr = RCC_APB1RSTR := by
    have h0 : reset_regs (rcc_dev_table RccDev.RCC_USART2).clk_domain = some RCC_APB1RSTR := rfl
    rw [h0] at haddr
    exact (Option.some.injEq _ _).mp haddr.symm
  subst ha
  exact hres (by decide)

/-- C7: `rcc_clk_enable` is idempotent — two calls produce the same register
file as one — and on a zeroed register file enabling GPIOA yields exactly
one set bit, at bit 2 of the APB2 enable register, with a second call
producing the identical value. -/
theorem rcc_clk_enable_idempotent :
    (∀ (dev : RccDev) (s : RegState),
        rcc_clk_enable dev (rcc_clk_enable dev s) = rcc_clk_enable dev s)
    ∧ (rcc_clk_enable RccDev.RCC_GPIOA zeroRegs) RCC_APB2ENR = 2 ^ 2
    ∧ (rcc_clk_enable RccDev.RCC_GPIOA (rcc_clk_enable RccDev.RCC_GPIOA zeroRegs)) RCC_APB2ENR
        = 2 ^ 2 := by
  refine ⟨?_, by decide, by decide⟩
  intro dev s
  funext a
  unfold rcc_clk_enable __set_bits __write __read
  by_cases ha : a = enable_regs (rcc_dev_table dev).clk_domain
  · simp [ha, lor_lor_self]
  · simp [ha]

/-- C8: the device table has exactly one descriptor per peripheral
identifier, and within each clock domain no two distinct peripherals share
a line number. -/
theorem rcc_dev_table_unique_lines :
    (∀ d : RccDev, ∃! e : rcc_dev_info, rcc_dev_table d = e)
    ∧ (∀ d1 d2 : RccDev, d1 ≠ d2 →
        (rcc_dev_table d1).clk_domain = (rcc_dev_table d2).clk_domain →
        (rcc_dev_table d1).line_num ≠ (rcc_dev_table d2).line_num) := by
  constructor
  · intro d
    exact ⟨rcc_dev_table d, rfl, fun y hy => hy.symm⟩
  · decide

/-- Witness for C8: GPIOA and GPIOB share the APB2 domain and have distinct
line numbers. -/
theorem rcc_dev_table_unique_lines_witness :
    (rcc_dev_table RccDev.RCC_GPIOA).line_num ≠ (rcc_dev_table RccDev.RCC_GPIOB).line_num :=
  rcc_dev_table_unique_lines.2 RccDev.RCC_GPIOA RccDev.RCC_GPIOB (by decide) (by decide)

/-- C9: whenever `rcc_clk_init` with valid arguments returns, the CFGR
value it has written is exactly `pll_src | pll_mul` with the SW field
switched to PLL, independent of the starting register state; consequently
its SW field equals the PLL selector and, when the multiplier encoding
carries no prescaler bits, all five prescaler fields are zero — any
prescaler configuration installed before the call is discarded. -/
theorem rcc_clk_init_cfgr_clobber :
    ∀ (pll_mul : Nat) (env : Nat → Nat) (fuel : Nat) (s : RegState) (evs : List Ev)
        (s1 : RegState),
      rcc_clk_init RCC_CLKSRC_PLL RCC_PLLSRC_HSE pll_mul env fuel s = InitResult.ok evs s1 →
      s1 RCC_CFGR = ((RCC_PLLSRC_HSE ||| pll_mul) &&& NOT32 RCC_CFGR_SW) ||| RCC_CFGR_SW_PLL
      ∧ s1 RCC_CFGR &&& RCC_CFGR_SW = RCC_CFGR_SW_PLL
      ∧ (pll_mul &&& prescalerFields = 0 → s1 RCC_CFGR &&& prescalerFields = 0) := by
  intro pll_mul env fuel s evs s1 h
  have hst := (rcc_clk_init_ok_spec h).2
  have hval : s1 RCC_CFGR
      = ((RCC_PLLSRC_HSE ||| pll_mul) &&& NOT32 RCC_CFGR_SW) ||| RCC_CFGR_SW_PLL := by
    rw [hst]
    unfold __write
    simp
  refine ⟨hval, ?_, ?_⟩
  · rw [hval]
    exact final_cfgr_sw pll_mul
  · intro hp
    rw [hval]
    exact final_cfgr_presc hp

/-- Witness for C9: a successful run with the x9 multiplier encoding leaves
CFGR equal to the composed value, with all prescaler fields zero. -/
theorem rcc_clk_init_cfgr_clobber_witness :
    InitResult.state (rcc_clk_init RCC_CLKSRC_PLL RCC_PLLSRC_HSE (0x7 <<< 18)
        (fun _ => 0x2020008) 10 zeroRegs) RCC_CFGR
      = ((RCC_PLLSRC_HSE ||| (0x7 <<< 18)) &&& NOT32 RCC_CFGR_SW) ||| RCC_CFGR_SW_PLL
    ∧ InitResult.state (rcc_clk_init RCC_CLKSRC_PLL RCC_PLLSRC_HSE (0x7 <<< 18)
        (fun _ => 0x2020008) 10 zeroRegs) RCC_CFGR &&& prescalerFields = 0 := by
  have h := rcc_clk_init_cfgr_clobber (0x7 <<< 18) (fun _ => 0x2020008) 10 zeroRegs _ _ rfl
  exact ⟨h.1, h.2.2 (by decide)⟩

/-- C10: every entry of the device table lies in the APB1 or APB2 domain —
none in AHB — so `rcc_reset_dev` always resolves a defined reset register
for every peripheral of the table. -/
theorem rcc_dev_table_apb_only :
    ∀ d : RccDev,
      ((rcc_dev_table d).clk_domain = ClkDomain.APB1
        ∨ (rcc_dev_table d).clk_domain = ClkDomain.APB2)
      ∧ (reset_regs (rcc_dev_table d).clk_domain).isSome = true := by
  decide
